import Mathlib

/-!
Verification of dhv-fragen.py: a converter from DHV paragliding-exam PDFs to a
tab-separated flashcard deck.  The definitions below are a shallow embedding of
the three pure extraction/assembly routines of the script:
`construct_correct_answer_list` (answer-key extractor over raw PDF drawing
commands), `parse_text_from_pdf` (line-oriented question-text state machine),
and `create_output_matrix` (output assembler with its `escape` helper), plus
`make_image_name`.  Strings are modelled as lists of characters; Python's
fatal errors (KeyError, AssertionError, IndexError) are modelled by `Option`.
-/

/-- Strings are modelled as lists of characters. -/
abbrev Str := List Char

/-- ASCII whitespace as recognised by Python's `str.strip()` (space, tab,
newline, carriage return, vertical tab, form feed; the source text is ASCII). -/
def isPySpace (c : Char) : Bool :=
  c = ' ' || c = '\t' || c = '\n' || c = '\r' || c = Char.ofNat 11 || c = Char.ofNat 12

/-- Python's `str.strip()`: remove leading and trailing whitespace. -/
def py_strip (l : Str) : Str :=
  ((l.dropWhile isPySpace).reverse.dropWhile isPySpace).reverse

/-- Python's `re.sub(" +", " ", s)`: collapse each run of spaces to one space. -/
def collapse_ws : Str → Str
  | [] => []
  | [c] => [c]
  | c1 :: c2 :: rest =>
    if c1 = ' ' ∧ c2 = ' ' then collapse_ws (c2 :: rest)
    else c1 :: collapse_ws (c2 :: rest)

/-- The per-line normalisation `re.sub(" +", " ", line_raw.strip())`. -/
def normalize_line (l : Str) : Str := collapse_ws (py_strip l)

/-- Match a literal pattern at the start of a string, returning the remainder
(models the literal parts of the script's anchored regexes). -/
def matchLit : Str → Str → Option Str
  | [], s => some s
  | _, [] => none
  | p :: ps, c :: cs => if c = p then matchLit ps cs else none

/-- Python's `int()` on a string of decimal digits. -/
def strToNat (l : Str) : Nat :=
  l.foldl (fun a c => a * 10 + (c.toNat - 48)) 0

/-- The decimal digit character for `n < 10`. -/
def digitChar (n : Nat) : Char := Char.ofNat (48 + n)

/-- Fuel-driven decimal rendering helper (the fuel `n + 1` always suffices). -/
def natStrAux : Nat → Nat → Str
  | 0, _ => []
  | fuel + 1, n =>
    if n < 10 then [digitChar n]
    else natStrAux fuel (n / 10) ++ [digitChar (n % 10)]

/-- Python's `"%d" % n` for a natural number. -/
def natStr (n : Nat) : Str := natStrAux (n + 1) n

/-!  Answer-key extractor (`construct_correct_answer_list`). -/

/-- The quadruplet dictionary `dict(BSSS=0, SBSS=1, SSBS=2, SSSB=3)`;
`none` models the KeyError raised on any other key. -/
def answer_map (g : Str) : Option Nat :=
  if g = "BSSS".toList then some 0
  else if g = "SBSS".toList then some 1
  else if g = "SSBS".toList then some 2
  else if g = "SSSB".toList then some 3
  else none

/-- `re.match(r"42\.52 \d+\.\d+ 8\.50 -8\.50 re ([BS])", line.strip())`:
a checkbox drawing command; returns the captured mark, `B` (filled, correct)
or `S` (empty, wrong). -/
def checkbox_match (line : Str) : Option Char :=
  match matchLit "42.52 ".toList (py_strip line) with
  | none => none
  | some s1 =>
    if (s1.takeWhile Char.isDigit).length = 0 then none
    else
      match s1.dropWhile Char.isDigit with
      | '.' :: s2 =>
        if (s2.takeWhile Char.isDigit).length = 0 then none
        else
          match matchLit " 8.50 -8.50 re ".toList (s2.dropWhile Char.isDigit) with
          | some ('B' :: _) => some 'B'
          | some ('S' :: _) => some 'S'
          | _ => none
      | _ => none

/-- One iteration of the answer-key loop: state is the pending accumulator
`answer_group` together with the reversed `answer_list`; `none` models the
KeyError on an unrecognised completed quadruplet. -/
def answer_step (st : Str × List Nat) (line : Str) : Option (Str × List Nat) :=
  let answer_group :=
    match checkbox_match line with
    | some c => st.1 ++ [c]
    | none => st.1
  if answer_group.length = 4 then
    match answer_map answer_group with
    | some i => some ([], i :: st.2)
    | none => none
  else some (answer_group, st.2)

/-- The answer-key loop over the remaining lines. -/
def answer_scan : List Str → (Str × List Nat) → Option (Str × List Nat)
  | [], st => some st
  | l :: ls, st =>
    match answer_step st l with
    | some st1 => answer_scan ls st1
    | none => none

/-- `construct_correct_answer_list`: scan all lines starting from an empty
accumulator and empty list, and return the collected indices in order. -/
def construct_correct_answer_list (lines : List Str) : Option (List Nat) :=
  (answer_scan lines ([], [])).map (fun st => st.2.reverse)

/-!  Question-text extractor (`parse_text_from_pdf`). -/

/-- One element of the heterogeneous accumulator list `current_q`
(index 0: question text; index 1: image number; indices 2-5: options). -/
inductive Entry where
  | s (t : Str)
  | n (k : Nat)
deriving DecidableEq

/-- The `State` enumeration of the text-extraction state machine. -/
inductive PState where
  | ignore
  | question
  | answer_a
  | answer_b
  | answer_c
  | answer_d
deriving DecidableEq

/-- The mutable variables of the `parse_text_from_pdf` loop. -/
structure TState where
  current_section : Nat
  last_question_number : Nat
  state : PState
  current_q : List Entry
  question_list : List (List Entry)
deriving DecidableEq

/-- Initial loop state: section 1, last question number 0, state `ignore`,
empty accumulator, empty output. -/
def init_state : TState :=
  { current_section := 1
  , last_question_number := 0
  , state := PState.ignore
  , current_q := []
  , question_list := [] }

/-- `re.match(r"^(\d+)\) (.*)$", line)`: a question header line; returns the
question number and the remaining text. -/
def match_question (l : Str) : Option (Nat × Str) :=
  match l.takeWhile Char.isDigit with
  | [] => none
  | ds =>
    match l.dropWhile Char.isDigit with
    | ')' :: ' ' :: rest => some (strToNat ds, rest)
    | _ => none

/-- `re.match(r"^Abbildung (\d+): *(.*)$", q_text)`: an image reference at the
start of the question text; returns the image number and the remaining text. -/
def match_abbildung (l : Str) : Option (Nat × Str) :=
  match matchLit "Abbildung ".toList l with
  | none => none
  | some s1 =>
    match s1.takeWhile Char.isDigit with
    | [] => none
    | ds =>
      match s1.dropWhile Char.isDigit with
      | ':' :: rest => some (strToNat ds, rest.dropWhile (fun c => c = ' '))
      | _ => none

/-- `re.match(r"^X\) *(.*)$", line)` for an option letter `X`. -/
def match_option (letter : Char) (l : Str) : Option Str :=
  match l with
  | c :: ')' :: rest => if c = letter then some (rest.dropWhile (fun c => c = ' ')) else none
  | _ => none

/-- `"%d.%d. %s" % (current_section, q_number, q_text)`. -/
def format_question (sec q_number : Nat) (q_text : Str) : Str :=
  natStr sec ++ '.' :: natStr q_number ++ '.' :: ' ' :: q_text

/-- `current_q[i] += " " + line` (the indexed element is always a string when
this is reached; a numeric element is left unchanged). -/
def append_at : List Entry → Nat → Str → List Entry
  | [], _, _ => []
  | e :: es, 0, line =>
    (match e with
     | Entry.s t => Entry.s (t ++ ' ' :: line)
     | Entry.n k => Entry.n k) :: es
  | e :: es, i + 1, line => e :: append_at es i line

/-- One iteration of the `parse_text_from_pdf` loop body; `none` models a
failing `assert` on the accumulator size. -/
def pdf_step (st : TState) (line_raw : Str) : Option TState :=
  let line := normalize_line line_raw
  match st.state with
  | PState.ignore =>
    match match_question line with
    | none => some st
    | some (q_number, header_rest) =>
      if st.current_q.length = 0 then
        let sec :=
          if q_number < st.last_question_number then st.current_section + 1
          else st.current_section
        let im :=
          match match_abbildung header_rest with
          | some p => p
          | none => (0, header_rest)
        some { current_section := sec
             , last_question_number := q_number
             , state := PState.question
             , current_q := [Entry.s (format_question sec q_number im.2), Entry.n im.1]
             , question_list := st.question_list }
      else none
  | PState.question =>
    if st.current_q.length = 2 then
      match match_option 'A' line with
      | some rest => some { st with current_q := st.current_q ++ [Entry.s rest], state := PState.answer_a }
      | none => some { st with current_q := append_at st.current_q 0 line }
    else none
  | PState.answer_a =>
    if st.current_q.length = 3 then
      match match_option 'B' line with
      | some rest => some { st with current_q := st.current_q ++ [Entry.s rest], state := PState.answer_b }
      | none => some { st with current_q := append_at st.current_q 2 line }
    else none
  | PState.answer_b =>
    if st.current_q.length = 4 then
      match match_option 'C' line with
      | some rest => some { st with current_q := st.current_q ++ [Entry.s rest], state := PState.answer_c }
      | none => some { st with current_q := append_at st.current_q 3 line }
    else none
  | PState.answer_c =>
    if st.current_q.length = 5 then
      match match_option 'D' line with
      | some rest => some { st with current_q := st.current_q ++ [Entry.s rest], state := PState.answer_d }
      | none => some { st with current_q := append_at st.current_q 4 line }
    else none
  | PState.answer_d =>
    if st.current_q.length = 6 then
      if line = [] then
        some { st with state := PState.ignore,
                       question_list := st.question_list ++ [st.current_q],
                       current_q := [] }
      else some { st with current_q := append_at st.current_q 5 line }
    else none

/-- The `parse_text_from_pdf` loop over the remaining lines. -/
def parse_scan : List Str → TState → Option TState
  | [], st => some st
  | l :: ls, st =>
    match pdf_step st l with
    | some st1 => parse_scan ls st1
    | none => none

/-- `parse_text_from_pdf`: run the state machine over all lines from the
initial state and return the completed question records in order. -/
def parse_text_from_pdf (lines : List Str) : Option (List (List Entry)) :=
  (parse_scan lines init_state).map (fun st => st.question_list)

/-!  Output assembler (`create_output_matrix`, `escape`, `make_image_name`). -/

/-- `string.replace("\\", "")`: remove every backslash. -/
def removeBackslashes : Str → Str
  | [] => []
  | c :: cs => if c = '\\' then removeBackslashes cs else c :: removeBackslashes cs

/-- `string.replace('"', r"\"")`: put a backslash before every double quote. -/
def escapeQuotes : Str → Str
  | [] => []
  | c :: cs => if c = '"' then '\\' :: '"' :: escapeQuotes cs else c :: escapeQuotes cs

/-- The assembler's `escape`: `string.replace("\\", "").replace('"', r"\"")`. -/
def escape (s : Str) : Str := escapeQuotes (removeBackslashes s)

/-- `make_image_name`: `"DHV-Fragen-Abbildung-%03d" % image_number`. -/
def make_image_name (image_number : Nat) : Str :=
  "DHV-Fragen-Abbildung-".toList
    ++ List.replicate (3 - (natStr image_number).length) '0'
    ++ natStr image_number

/-- The HTML image tag
`'<img src="%s.%s" alt="Abbildung %d"><br>' % (make_image_name(n), suffix, n)`. -/
def img_html (img_number : Nat) (suffix : Str) : Str :=
  "<img src=\"".toList ++ make_image_name img_number ++ '.' :: suffix
    ++ "\" alt=\"Abbildung ".toList ++ natStr img_number ++ "\"><br>".toList

/-- Python's `list.pop(i)`: the removed element and the remaining list;
`none` models the IndexError on an out-of-range index. -/
def listPop {α : Type} : List α → Nat → Option (α × List α)
  | [], _ => none
  | x :: xs, 0 => some (x, xs)
  | x :: xs, i + 1 => (listPop xs i).map (fun p => (p.1, x :: p.2))

/-- One iteration of the `create_output_matrix` loop: unpack the record,
pop the correct answer, optionally prepend the image tag (escaping the
question text there), and build the escaped output row.  `none` models the
unpacking error on a malformed record and the KeyError on a missing image. -/
def make_row (q : List Entry) (correct_index : Nat)
    (filetype_map : Nat → Option Str) : Option (List Str) :=
  match q with
  | [Entry.s question, Entry.n img_number, Entry.s ans_a, Entry.s ans_b,
     Entry.s ans_c, Entry.s ans_d] =>
    match listPop [ans_a, ans_b, ans_c, ans_d] correct_index with
    | none => none
    | some (correct_answer, answers) =>
      match (if img_number ≠ 0 then
               match filetype_map img_number with
               | some suffix => some (img_html img_number suffix ++ escape question)
               | none => none
             else some question) with
      | none => none
      | some q1 => some (q1 :: escape correct_answer :: answers.map escape)
  | _ => none

/-- The `create_output_matrix` loop over the zipped records and indices. -/
def rows_of : List (List Entry × Nat) → (Nat → Option Str) → Option (List (List Str))
  | [], _ => some []
  | (q, ci) :: rest, filetype_map =>
    match make_row q ci filetype_map, rows_of rest filetype_map with
    | some r, some rs => some (r :: rs)
    | _, _ => none

/-- `create_output_matrix`: assert equal lengths, then build one row per
question record in order. -/
def create_output_matrix (question_list : List (List Entry))
    (correct_answers : List Nat) (filetype_map : Nat → Option Str) :
    Option (List (List Str)) :=
  if question_list.length = correct_answers.length then
    rows_of (question_list.zip correct_answers) filetype_map
  else none

/-- The accumulator size expected by each state's `assert`. -/
def expected_len : PState → Nat
  | PState.ignore => 0
  | PState.question => 2
  | PState.answer_a => 3
  | PState.answer_b => 4
  | PState.answer_c => 5
  | PState.answer_d => 6

/-!  Helper lemmas. -/

theorem rb_no_backslash (s : Str) : ∀ c ∈ removeBackslashes s, c ≠ '\\' := by
  induction s with
  | nil => simp [removeBackslashes]
  | cons c cs ih =>
    by_cases h : c = '\\'
    · simpa [removeBackslashes, h] using ih
    · intro d hd
      simp only [removeBackslashes, if_neg h, List.mem_cons] at hd
      rcases hd with hd | hd
      · exact hd ▸ h
      · exact ih d hd

theorem rb_escapeQuotes_of_clean (t : Str) (h : ∀ c ∈ t, c ≠ '\\') :
    removeBackslashes (escapeQuotes t) = t := by
  induction t with
  | nil => rfl
  | cons c cs ih =>
    have hc : c ≠ '\\' := h c (List.mem_cons_self c cs)
    have hcs : ∀ d ∈ cs, d ≠ '\\' := fun d hd => h d (List.mem_cons_of_mem c hd)
    by_cases hq : c = '"'
    · subst hq
      simp [escapeQuotes, removeBackslashes, ih hcs]
    · simp [escapeQuotes, hq, removeBackslashes, hc, ih hcs]

/-- C4: The escape transformation (strip backslashes, then escape double
quotes) is idempotent: escaping a second time leaves the result unchanged;
in particular escaping the string `He said "hi"\` yields `He said \"hi\"`,
which escapes to itself. -/
theorem claim_C4 :
    (∀ s : Str, escape (escape s) = escape s) ∧
    escape "He said \"hi\"\\".toList = "He said \\\"hi\\\"".toList ∧
    escape "He said \\\"hi\\\"".toList = "He said \\\"hi\\\"".toList := by
  refine ⟨?_, by decide, by decide⟩
  intro s
  show escapeQuotes (removeBackslashes (escapeQuotes (removeBackslashes s))) = _
  rw [rb_escapeQuotes_of_clean _ (rb_no_backslash s)]
  rfl

/-- C5: End-to-end scenario: the question block for
`1) Abbildung 3: What is shown?` with options Cat/Dog/Bird/Fish parses to the
expected record, the answer-key quadruplet `SBSS` yields correct index 1, and
assembly with image catalog `{3 -> "png"}` produces exactly the row
`[<img src="DHV-Fragen-Abbildung-003.png" alt="Abbildung 3"><br>1.1. What is
shown?, Dog, Cat, Bird, Fish]`. -/
theorem claim_C5 :
    parse_text_from_pdf
        ["1) Abbildung 3: What is shown?".toList, "A) Cat".toList, "B) Dog".toList,
         "C) Bird".toList, "D) Fish".toList, []]
      = some [[Entry.s "1.1. What is shown?".toList, Entry.n 3, Entry.s "Cat".toList,
               Entry.s "Dog".toList, Entry.s "Bird".toList, Entry.s "Fish".toList]] ∧
    construct_correct_answer_list
        ["42.52 700.0 8.50 -8.50 re S".toList, "42.52 690.0 8.50 -8.50 re B".toList,
         "42.52 680.0 8.50 -8.50 re S".toList, "42.52 670.0 8.50 -8.50 re S".toList]
      = some [1] ∧
    create_output_matrix
        [[Entry.s "1.1. What is shown?".toList, Entry.n 3, Entry.s "Cat".toList,
          Entry.s "Dog".toList, Entry.s "Bird".toList, Entry.s "Fish".toList]]
        [1] (fun n => if n = 3 then some "png".toList else none)
      = some [["<img src=\"DHV-Fragen-Abbildung-003.png\" alt=\"Abbildung 3\"><br>1.1. What is shown?".toList,
               "Dog".toList, "Cat".toList, "Bird".toList, "Fish".toList]] := by
  refine ⟨by decide, by decide, by decide⟩

theorem answer_scan_append (a b : List Str) (st : Str × List Nat) :
    answer_scan (a ++ b) st = (answer_scan a st).bind (fun st1 => answer_scan b st1) := by
  induction a generalizing st with
  | nil => simp [answer_scan]
  | cons l ls ih =>
    simp only [List.cons_append, answer_scan]
    cases answer_step st l with
    | none => rfl
    | some st1 => exact ih st1

/-- C1: the quadruplet map accepts exactly the four one-filled-box patterns
with their 0-based indices, rejects every other accumulator value, and a
completed quadruplet outside the map makes the whole extraction fail
(modelling the uncaught KeyError). -/
theorem claim_C1 :
    (answer_map "BSSS".toList = some 0 ∧ answer_map "SBSS".toList = some 1 ∧
     answer_map "SSBS".toList = some 2 ∧ answer_map "SSSB".toList = some 3) ∧
    (∀ g : Str,
       g ∉ ["BSSS".toList, "SBSS".toList, "SSBS".toList, "SSSB".toList] →
       answer_map g = none) ∧
    (∀ pre line post g acc c,
       answer_scan pre ([], []) = some (g, acc) →
       checkbox_match line = some c →
       (g ++ [c]).length = 4 →
       answer_map (g ++ [c]) = none →
       construct_correct_answer_list (pre ++ line :: post) = none) := by
  refine ⟨by decide, ?_, ?_⟩
  · intro g hg
    simp only [List.mem_cons, List.not_mem_nil, or_false, not_or] at hg
    obtain ⟨h1, h2, h3, h4⟩ := hg
    simp only [answer_map]
    rw [if_neg h1, if_neg h2, if_neg h3, if_neg h4]
  · intro pre line post g acc c hpre hc hlen hmap
    unfold construct_correct_answer_list
    rw [answer_scan_append, hpre, Option.some_bind]
    simp [answer_scan, answer_step, hc, hlen, hmap]

theorem answer_scan_small (tail : List Str) :
    ∀ g acc, g.length + (tail.filterMap checkbox_match).length ≤ 3 →
      answer_scan tail (g, acc) = some (g ++ tail.filterMap checkbox_match, acc) := by
  induction tail with
  | nil => intro g acc _; simp [answer_scan]
  | cons l ls ih =>
    intro g acc h
    simp only [answer_scan, answer_step]
    cases hc : checkbox_match l with
    | none =>
      simp only [List.filterMap_cons, hc] at h ⊢
      have hlen : ¬ g.length = 4 := by omega
      simp only [hlen, if_false]
      exact ih g acc h
    | some c =>
      simp only [List.filterMap_cons, hc, List.length_cons] at h ⊢
      have hlen : ¬ (g ++ [c]).length = 4 := by
        simp only [List.length_append, List.length_singleton]
        omega
      simp only [hlen, if_false]
      rw [ih (g ++ [c]) acc (by simp only [List.length_append, List.length_singleton]; omega)]
      simp

/-- C9: if the input ends with 1-3 pending checkbox marks in the accumulator,
the incomplete trailing group is silently discarded: the extractor returns
exactly the indices of the completed groups and raises no error. -/
theorem claim_C9 : ∀ (lines tail : List Str) (g : Str) (acc : List Nat),
    answer_scan lines ([], []) = some (g, acc) →
    g.length + (tail.filterMap checkbox_match).length ≤ 3 →
    construct_correct_answer_list (lines ++ tail) = some acc.reverse ∧
    construct_correct_answer_list lines = some acc.reverse := by
  intro lines tail g acc h hsmall
  constructor
  · unfold construct_correct_answer_list
    rw [answer_scan_append, h, Option.some_bind, answer_scan_small tail g acc hsmall]
    rfl
  · unfold construct_correct_answer_list
    rw [h]
    rfl

/-- C1 witness: the non-pattern quadruplet `BBSS` (two filled boxes) is
rejected by the map and makes a concrete extraction run fail. -/
theorem claim_C1_witness :
    answer_map "BBSS".toList = none ∧
    construct_correct_answer_list
        ["42.52 700.0 8.50 -8.50 re B".toList,
         "42.52 690.0 8.50 -8.50 re B".toList,
         "42.52 680.0 8.50 -8.50 re S".toList,
         "42.52 670.0 8.50 -8.50 re S".toList] = none :=
  ⟨claim_C1.2.1 "BBSS".toList (by decide),
   claim_C1.2.2
     ["42.52 700.0 8.50 -8.50 re B".toList,
      "42.52 690.0 8.50 -8.50 re B".toList,
      "42.52 680.0 8.50 -8.50 re S".toList]
     "42.52 670.0 8.50 -8.50 re S".toList []
     ['B', 'B', 'S'] [] 'S' (by decide) (by decide) (by decide) (by decide)⟩

/-- C9 witness: one complete `BSSS` quadruplet followed by a single trailing
mark yields exactly the one completed index, with the trailing mark ignored. -/
theorem claim_C9_witness :
    construct_correct_answer_list
        (["42.52 700.0 8.50 -8.50 re B".toList,
          "42.52 690.0 8.50 -8.50 re S".toList,
          "42.52 680.0 8.50 -8.50 re S".toList,
          "42.52 670.0 8.50 -8.50 re S".toList] ++
         ["42.52 660.0 8.50 -8.50 re B".toList]) = some [0] ∧
    construct_correct_answer_list
        ["42.52 700.0 8.50 -8.50 re B".toList,
         "42.52 690.0 8.50 -8.50 re S".toList,
         "42.52 680.0 8.50 -8.50 re S".toList,
         "42.52 670.0 8.50 -8.50 re S".toList] = some [0] :=
  claim_C9
    ["42.52 700.0 8.50 -8.50 re B".toList,
     "42.52 690.0 8.50 -8.50 re S".toList,
     "42.52 680.0 8.50 -8.50 re S".toList,
     "42.52 670.0 8.50 -8.50 re S".toList]
    ["42.52 660.0 8.50 -8.50 re B".toList]
    [] [0] (by decide) (by decide)

theorem rows_of_length :
    ∀ (l : List (List Entry × Nat)) (ftm : Nat → Option Str) (rs : List (List Str)),
      rows_of l ftm = some rs → rs.length = l.length := by
  intro l
  induction l with
  | nil =>
    intro ftm rs h
    simp only [rows_of, Option.some.injEq] at h
    simp [← h]
  | cons p rest ih =>
    intro ftm rs h
    obtain ⟨q, ci⟩ := p
    simp only [rows_of] at h
    cases hm : make_row q ci ftm with
    | none => rw [hm] at h; exact absurd h (by simp)
    | some r =>
      cases hr : rows_of rest ftm with
      | none => rw [hm, hr] at h; exact absurd h (by simp)
      | some rs1 =>
        rw [hm, hr] at h
        simp only [Option.some.injEq] at h
        subst h
        simp [ih ftm rs1 hr]

theorem rows_of_get :
    ∀ (l : List (List Entry × Nat)) (ftm : Nat → Option Str) (rs : List (List Str)),
      rows_of l ftm = some rs →
      ∀ i, rs.get? i = (l.get? i).bind (fun p => make_row p.1 p.2 ftm) := by
  intro l
  induction l with
  | nil =>
    intro ftm rs h i
    simp only [rows_of, Option.some.injEq] at h
    simp [← h]
  | cons p rest ih =>
    intro ftm rs h i
    obtain ⟨q, ci⟩ := p
    simp only [rows_of] at h
    cases hm : make_row q ci ftm with
    | none => rw [hm] at h; exact absurd h (by simp)
    | some r =>
      cases hr : rows_of rest ftm with
      | none => rw [hm, hr] at h; exact absurd h (by simp)
      | some rs1 =>
        rw [hm, hr] at h
        simp only [Option.some.injEq] at h
        subst h
        cases i with
        | zero => simp only [List.get?_cons_zero, Option.some_bind, hm]
        | succ j =>
          simp only [List.get?_cons_succ]
          exact ih ftm rs1 hr j

/-- C7: with differing question/answer-key lengths the assembler fails before
producing any row; with equal lengths every successful run has exactly one
output row per question record, in order. -/
theorem claim_C7 :
    ∀ (question_list : List (List Entry)) (correct_answers : List Nat)
      (filetype_map : Nat → Option Str),
    (question_list.length ≠ correct_answers.length →
       create_output_matrix question_list correct_answers filetype_map = none) ∧
    (∀ rows, create_output_matrix question_list correct_answers filetype_map = some rows →
       rows.length = question_list.length ∧
       ∀ i, rows.get? i =
         ((question_list.zip correct_answers).get? i).bind
           (fun p => make_row p.1 p.2 filetype_map)) := by
  intro question_list correct_answers filetype_map
  constructor
  · intro hne
    simp [create_output_matrix, hne]
  · intro rows h
    unfold create_output_matrix at h
    by_cases heq : question_list.length = correct_answers.length
    · rw [if_pos heq] at h
      refine ⟨?_, rows_of_get _ _ _ h⟩
      rw [rows_of_length _ _ _ h, List.length_zip, heq, min_self]
    · rw [if_neg heq] at h
      exact absurd h (by simp)

/-- C7 witness: a mismatched pair fails, and a matched single-record pair
produces exactly one row. -/
theorem claim_C7_witness :
    create_output_matrix [] [0] (fun _ => none) = none ∧
    ([[['q'], ['a'], ['b'], ['c'], ['d']]] : List (List Str)).length =
      ([[Entry.s ['q'], Entry.n 0, Entry.s ['a'], Entry.s ['b'], Entry.s ['c'],
         Entry.s ['d']]] : List (List Entry)).length :=
  ⟨(claim_C7 [] [0] (fun _ => none)).1 (by decide),
   ((claim_C7 [[Entry.s ['q'], Entry.n 0, Entry.s ['a'], Entry.s ['b'], Entry.s ['c'],
       Entry.s ['d']]] [0] (fun _ => none)).2
     [[['q'], ['a'], ['b'], ['c'], ['d']]] (by decide)).1⟩

/-- C6: every produced output row carries the option selected by the
correct-answer index in column 2 (after the assembler's escaping), and the
remaining three options in columns 3-5 in their original A/B/C/D order. -/
theorem claim_C6 :
    ∀ (qt : Str) (img : Nat) (a b c d : Str) (k : Nat)
      (filetype_map : Nat → Option Str) (row : List Str),
    k < 4 →
    make_row [Entry.s qt, Entry.n img, Entry.s a, Entry.s b, Entry.s c, Entry.s d]
        k filetype_map = some row →
    ∃ qdisp, row = qdisp :: escape ([a, b, c, d].getD k []) ::
        (([a, b, c, d].eraseIdx k).map escape) := by
  intro qt img a b c d k filetype_map row hk h
  simp only [make_row] at h
  have main : ∀ (correct : Str) (rest : List Str),
      listPop [a, b, c, d] k = some (correct, rest) →
      correct = [a, b, c, d].getD k [] ∧ rest = [a, b, c, d].eraseIdx k := by
    interval_cases k <;> intro correct rest hpop <;>
      simp only [listPop, Option.map_some', Option.some.injEq,
        Prod.mk.injEq] at hpop <;>
      exact ⟨hpop.1.symm, hpop.2.symm⟩
  cases hpop : listPop [a, b, c, d] k with
  | none => rw [hpop] at h; exact absurd h (by simp)
  | some p =>
    obtain ⟨correct, rest⟩ := p
    rw [hpop] at h
    obtain ⟨hcor, hrest⟩ := main correct rest hpop
    by_cases himg : img = 0
    · simp only [himg, ne_eq, not_true_eq_false, if_false, reduceIte,
        Option.some.injEq] at h
      exact ⟨qt, by rw [← h, hcor, hrest]⟩
    · cases hft : filetype_map img with
      | none =>
        rw [if_pos himg, hft] at h
        exact absurd h (by simp)
      | some suffix =>
        rw [if_pos himg, hft] at h
        simp only [Option.some.injEq] at h
        exact ⟨img_html img suffix ++ escape qt, by rw [← h, hcor, hrest]⟩

/-- C6 witness: with correct index 1, option B lands in column 2 and A, C, D
follow in order. -/
theorem claim_C6_witness :
    ∃ qdisp, (["Q1".toList, "B2".toList, "A1".toList, "C3".toList, "D4".toList] :
        List Str) =
      qdisp :: escape (["A1".toList, "B2".toList, "C3".toList, "D4".toList].getD 1 []) ::
        ((["A1".toList, "B2".toList, "C3".toList, "D4".toList].eraseIdx 1).map escape) :=
  claim_C6 "Q1".toList 0 "A1".toList "B2".toList "C3".toList "D4".toList 1
    (fun _ => none) ["Q1".toList, "B2".toList, "A1".toList, "C3".toList, "D4".toList]
    (by decide) (by decide)

/-- C3 counterexample: a question record WITHOUT an image reference whose
question text contains a backslash is emitted verbatim in the first column —
the assembler does not apply `escape` to it, although `escape` would have
stripped the backslash. -/
theorem claim_C3_cex :
    create_output_matrix
        [[Entry.s ['x', '\\'], Entry.n 0, Entry.s ['a'], Entry.s ['b'],
          Entry.s ['c'], Entry.s ['d']]]
        [0] (fun _ => none)
      = some [[['x', '\\'], ['a'], ['b'], ['c'], ['d']]] ∧
    escape ['x', '\\'] = ['x'] ∧ (['x', '\\'] : Str) ≠ ['x'] := by
  refine ⟨by decide, by decide, by decide⟩

/-- C3 (amended): in every produced output row the correct-answer text and the
three incorrect-answer texts are escaped (backslashes stripped, then embedded
double quotes escaped); the question-display text is escaped only when the
record carries an image reference, in which case the escaped question text is
prefixed with the (unescaped) image tag; a question without an image reference
is emitted verbatim. -/
theorem claim_C3 :
    ∀ (qt : Str) (img : Nat) (a b c d : Str) (k : Nat)
      (filetype_map : Nat → Option Str) (row : List Str),
    make_row [Entry.s qt, Entry.n img, Entry.s a, Entry.s b, Entry.s c, Entry.s d]
        k filetype_map = some row →
    ∃ qdisp correct rest,
      listPop [a, b, c, d] k = some (correct, rest) ∧
      row = qdisp :: escape correct :: rest.map escape ∧
      (img = 0 → qdisp = qt) ∧
      (img ≠ 0 → ∃ suffix, filetype_map img = some suffix ∧
         qdisp = img_html img suffix ++ escape qt) := by
  intro qt img a b c d k filetype_map row h
  simp only [make_row] at h
  cases hpop : listPop [a, b, c, d] k with
  | none => rw [hpop] at h; exact absurd h (by simp)
  | some p =>
    obtain ⟨correct, rest⟩ := p
    rw [hpop] at h
    by_cases himg : img = 0
    · simp only [himg, ne_eq, not_true_eq_false, if_false, reduceIte,
        Option.some.injEq] at h
      exact ⟨qt, correct, rest, rfl, h.symm, fun _ => rfl, fun hne => absurd himg hne⟩
    · cases hft : filetype_map img with
      | none =>
        rw [if_pos himg, hft] at h
        exact absurd h (by simp)
      | some suffix =>
        rw [if_pos himg, hft] at h
        simp only [Option.some.injEq] at h
        exact ⟨img_html img suffix ++ escape qt, correct, rest, rfl, h.symm,
          fun h0 => absurd h0 himg, fun _ => ⟨suffix, rfl, rfl⟩⟩

/-- C3 witness: a record with image reference 3 and a quote in an answer gets
its answer texts escaped and the image tag prefixed to the escaped question. -/
theorem claim_C3_witness :
    ∃ qdisp correct rest,
      listPop [['a', '"'], ['b'], ['c'], ['d']] 0 = some (correct, rest) ∧
      (["<img src=\"DHV-Fragen-Abbildung-003.png\" alt=\"Abbildung 3\"><br>q".toList,
        ['a', '\\', '"'], ['b'], ['c'], ['d']] : List Str) =
        qdisp :: escape correct :: rest.map escape ∧
      ((3 : Nat) = 0 → qdisp = ['q']) ∧
      ((3 : Nat) ≠ 0 → ∃ suffix,
         (fun n => if n = 3 then some "png".toList else none) 3 = some suffix ∧
         qdisp = img_html 3 suffix ++ escape ['q']) :=
  claim_C3 ['q'] 3 ['a', '"'] ['b'] ['c'] ['d'] 0
    (fun n => if n = 3 then some "png".toList else none)
    ["<img src=\"DHV-Fragen-Abbildung-003.png\" alt=\"Abbildung 3\"><br>q".toList,
     ['a', '\\', '"'], ['b'], ['c'], ['d']]
    (by decide)

theorem length_append_at : ∀ (l : List Entry) (i : Nat) (s : Str),
    (append_at l i s).length = l.length := by
  intro l
  induction l with
  | nil => intro i s; rfl
  | cons e es ih =>
    intro i s
    cases i with
    | zero => simp [append_at]
    | succ j => simp [append_at, ih]

/-- C2: the running section counter starts at 1, the last-seen local number at
0, and on each recognised question header the section increments exactly when
the new local number is strictly below the previous one; in particular local
numbers [1,2,3,1,2] produce question texts with sections [1,1,1,2,2]. -/
theorem claim_C2 :
    init_state.current_section = 1 ∧ init_state.last_question_number = 0 ∧
    (∀ (st : TState) (line : Str) (q_number : Nat) (rest : Str) (st1 : TState),
       st.state = PState.ignore →
       match_question (normalize_line line) = some (q_number, rest) →
       pdf_step st line = some st1 →
       st1.current_section =
         (if q_number < st.last_question_number then st.current_section + 1
          else st.current_section) ∧
       st1.last_question_number = q_number) ∧
    parse_text_from_pdf
        ["1) T".toList, "A) a".toList, "B) b".toList, "C) c".toList, "D) d".toList, [],
         "2) T".toList, "A) a".toList, "B) b".toList, "C) c".toList, "D) d".toList, [],
         "3) T".toList, "A) a".toList, "B) b".toList, "C) c".toList, "D) d".toList, [],
         "1) T".toList, "A) a".toList, "B) b".toList, "C) c".toList, "D) d".toList, [],
         "2) T".toList, "A) a".toList, "B) b".toList, "C) c".toList, "D) d".toList, []]
      = some
        [[Entry.s "1.1. T".toList, Entry.n 0, Entry.s "a".toList, Entry.s "b".toList,
          Entry.s "c".toList, Entry.s "d".toList],
         [Entry.s "1.2. T".toList, Entry.n 0, Entry.s "a".toList, Entry.s "b".toList,
          Entry.s "c".toList, Entry.s "d".toList],
         [Entry.s "1.3. T".toList, Entry.n 0, Entry.s "a".toList, Entry.s "b".toList,
          Entry.s "c".toList, Entry.s "d".toList],
         [Entry.s "2.1. T".toList, Entry.n 0, Entry.s "a".toList, Entry.s "b".toList,
          Entry.s "c".toList, Entry.s "d".toList],
         [Entry.s "2.2. T".toList, Entry.n 0, Entry.s "a".toList, Entry.s "b".toList,
          Entry.s "c".toList, Entry.s "d".toList]] := by
  refine ⟨rfl, rfl, ?_, by decide⟩
  intro st line q_number rest st1 hstate hmatch hstep
  simp only [pdf_step, hstate, hmatch] at hstep
  by_cases hcq : st.current_q.length = 0
  · rw [if_pos hcq] at hstep
    simp only [Option.some.injEq] at hstep
    rw [← hstep]
    exact ⟨rfl, rfl⟩
  · rw [if_neg hcq] at hstep
    exact absurd hstep (by simp)

/-- C2 witness: from the initial state, a header with local number 5 keeps the
section at 1 (5 is not below 0) and records 5 as the last-seen number. -/
theorem claim_C2_witness :
    (TState.mk 1 5 PState.question [Entry.s "1.5. Hello".toList, Entry.n 0] []).current_section =
      (if 5 < init_state.last_question_number then init_state.current_section + 1
       else init_state.current_section) ∧
    (TState.mk 1 5 PState.question [Entry.s "1.5. Hello".toList, Entry.n 0] []).last_question_number = 5 :=
  claim_C2.2.2.1 init_state "5) Hello".toList 5 "Hello".toList
    (TState.mk 1 5 PState.question [Entry.s "1.5. Hello".toList, Entry.n 0] [])
    rfl (by decide) (by decide)

theorem pdf_step_inv (st : TState) (line : Str)
    (h : st.current_q.length = expected_len st.state) :
    ∃ st1, pdf_step st line = some st1 ∧
      st1.current_q.length = expected_len st1.state := by
  obtain ⟨cs, lq, s0, cq, ql⟩ := st
  cases s0 with
  | ignore =>
    replace h : cq.length = 0 := h
    cases hm : match_question (normalize_line line) with
    | none =>
      refine ⟨⟨cs, lq, PState.ignore, cq, ql⟩, ?_, ?_⟩
      · simp only [pdf_step, hm]
      · exact h
    | some p =>
      obtain ⟨qn, rest⟩ := p
      refine ⟨⟨if qn < lq then cs + 1 else cs, qn, PState.question,
        [Entry.s (format_question (if qn < lq then cs + 1 else cs) qn
           ((match match_abbildung rest with
             | some p => p
             | none => (0, rest)) : Nat × Str).2),
         Entry.n ((match match_abbildung rest with
             | some p => p
             | none => (0, rest)) : Nat × Str).1], ql⟩, ?_, ?_⟩
      · simp only [pdf_step, hm]
        rw [if_pos h]
      · rfl
  | question =>
    replace h : cq.length = 2 := h
    cases hm : match_option 'A' (normalize_line line) with
    | some rest =>
      refine ⟨⟨cs, lq, PState.answer_a, cq ++ [Entry.s rest], ql⟩, ?_, ?_⟩
      · simp only [pdf_step]
        rw [if_pos h, hm]
      · show (cq ++ [Entry.s rest]).length = 3
        simp [h]
    | none =>
      refine ⟨⟨cs, lq, PState.question, append_at cq 0 (normalize_line line), ql⟩, ?_, ?_⟩
      · simp only [pdf_step]
        rw [if_pos h, hm]
      · show (append_at cq 0 (normalize_line line)).length = 2
        rw [length_append_at]
        exact h
  | answer_a =>
    replace h : cq.length = 3 := h
    cases hm : match_option 'B' (normalize_line line) with
    | some rest =>
      refine ⟨⟨cs, lq, PState.answer_b, cq ++ [Entry.s rest], ql⟩, ?_, ?_⟩
      · simp only [pdf_step]
        rw [if_pos h, hm]
      · show (cq ++ [Entry.s rest]).length = 4
        simp [h]
    | none =>
      refine ⟨⟨cs, lq, PState.answer_a, append_at cq 2 (normalize_line line), ql⟩, ?_, ?_⟩
      · simp only [pdf_step]
        rw [if_pos h, hm]
      · show (append_at cq 2 (normalize_line line)).length = 3
        rw [length_append_at]
        exact h
  | answer_b =>
    replace h : cq.length = 4 := h
    cases hm : match_option 'C' (normalize_line line) with
    | some rest =>
      refine ⟨⟨cs, lq, PState.answer_c, cq ++ [Entry.s rest], ql⟩, ?_, ?_⟩
      · simp only [pdf_step]
        rw [if_pos h, hm]
      · show (cq ++ [Entry.s rest]).length = 5
        simp [h]
    | none =>
      refine ⟨⟨cs, lq, PState.answer_b, append_at cq 3 (normalize_line line), ql⟩, ?_, ?_⟩
      · simp only [pdf_step]
        rw [if_pos h, hm]
      · show (append_at cq 3 (normalize_line line)).length = 4
        rw [length_append_at]
        exact h
  | answer_c =>
    replace h : cq.length = 5 := h
    cases hm : match_option 'D' (normalize_line line) with
    | some rest =>
      refine ⟨⟨cs, lq, PState.answer_d, cq ++ [Entry.s rest], ql⟩, ?_, ?_⟩
      · simp only [pdf_step]
        rw [if_pos h, hm]
      · show (cq ++ [Entry.s rest]).length = 6
        simp [h]
    | none =>
      refine ⟨⟨cs, lq, PState.answer_c, append_at cq 4 (normalize_line line), ql⟩, ?_, ?_⟩
      · simp only [pdf_step]
        rw [if_pos h, hm]
      · show (append_at cq 4 (normalize_line line)).length = 5
        rw [length_append_at]
        exact h
  | answer_d =>
    replace h : cq.length = 6 := h
    by_cases hb : normalize_line line = []
    · refine ⟨⟨cs, lq, PState.ignore, [], ql ++ [cq]⟩, ?_, ?_⟩
      · simp only [pdf_step]
        rw [if_pos h, if_pos hb]
      · rfl
    · refine ⟨⟨cs, lq, PState.answer_d, append_at cq 5 (normalize_line line), ql⟩, ?_, ?_⟩
      · simp only [pdf_step]
        rw [if_pos h, if_neg hb]
      · show (append_at cq 5 (normalize_line line)).length = 6
        rw [length_append_at]
        exact h

theorem parse_scan_inv : ∀ (lines : List Str) (st : TState),
    st.current_q.length = expected_len st.state →
    ∃ st1, parse_scan lines st = some st1 ∧
      st1.current_q.length = expected_len st1.state := by
  intro lines
  induction lines with
  | nil => intro st h; exact ⟨st, rfl, h⟩
  | cons l ls ih =>
    intro st h
    obtain ⟨st1, hstep, hinv⟩ := pdf_step_inv st l h
    obtain ⟨st2, hscan, hinv2⟩ := ih st1 hinv
    exact ⟨st2, by simp only [parse_scan, hstep, hscan], hinv2⟩

/-- C8: on every input line sequence the state machine keeps the
accumulator-size invariant (0 fields between questions, 2 after a question
header, 3/4/5/6 in the option states), so no internal-consistency assertion
ever fails and the parse always returns a result. -/
theorem claim_C8 : ∀ lines : List Str,
    (∃ st, parse_scan lines init_state = some st ∧
       st.current_q.length = expected_len st.state) ∧
    (parse_text_from_pdf lines).isSome := by
  intro lines
  obtain ⟨st, hs, hinv⟩ := parse_scan_inv lines init_state rfl
  exact ⟨⟨st, hs, hinv⟩, by simp [parse_text_from_pdf, hs]⟩

/-- C10: if the input ends while the machine is mid-record (any state other
than between-questions), the run still succeeds and returns exactly the
already-completed records; the nonempty partial accumulator is dropped
without an error.  Concretely, a question block missing its closing blank
line yields no record, while the same block with the blank line yields one. -/
theorem claim_C10 :
    (∀ (lines : List Str) (st : TState),
       parse_scan lines init_state = some st →
       st.state ≠ PState.ignore →
       parse_text_from_pdf lines = some st.question_list ∧
       2 ≤ st.current_q.length) ∧
    parse_text_from_pdf
        ["1) T".toList, "A) a".toList, "B) b".toList, "C) c".toList, "D) d".toList]
      = some [] ∧
    parse_text_from_pdf
        ["1) T".toList, "A) a".toList, "B) b".toList, "C) c".toList, "D) d".toList, []]
      = some [[Entry.s "1.1. T".toList, Entry.n 0, Entry.s "a".toList,
               Entry.s "b".toList, Entry.s "c".toList, Entry.s "d".toList]] := by
  refine ⟨?_, by decide, by decide⟩
  intro lines st h hne
  refine ⟨by simp [parse_text_from_pdf, h], ?_⟩
  obtain ⟨st1, hs1, hinv⟩ := parse_scan_inv lines init_state rfl
  have hst : st1 = st := by
    rw [h] at hs1
    exact (Option.some.inj hs1).symm
  subst hst
  rw [hinv]
  cases hstate : st1.state with
  | ignore => exact absurd hstate hne
  | question => simp [expected_len]
  | answer_a => simp [expected_len]
  | answer_b => simp [expected_len]
  | answer_c => simp [expected_len]
  | answer_d => simp [expected_len]

/-- C10 witness: a lone question header leaves the machine mid-record; the
parse succeeds with no emitted record and a 2-field partial accumulator. -/
theorem claim_C10_witness :
    parse_text_from_pdf ["1) T".toList] =
      some (TState.mk 1 1 PState.question [Entry.s "1.1. T".toList, Entry.n 0] []).question_list ∧
    2 ≤ (TState.mk 1 1 PState.question [Entry.s "1.1. T".toList, Entry.n 0] []).current_q.length :=
  claim_C10.1 ["1) T".toList]
    (TState.mk 1 1 PState.question [Entry.s "1.1. T".toList, Entry.n 0] [])
    (by decide) (by decide)
